import Mathlib

/-!
Verification of the machine-api-provider-aws lifecycle engine.

The Go sources are shallowly embedded: strings are `List Char`, Go pointers
are `Option`, fallible calls return explicit result inductives, and every
outbound backend or cluster call is an oracle field of an environment
structure.  A Go panic (nil-pointer dereference) is an explicit `panicked`
outcome.  Function and field names follow the source where Lean allows.
-/

namespace MapAws

/-! ## Provider identity codec (internal/aws/util.go) -/

/-- Structured provider identity, from `internal/aws/util.go`. -/
structure ProviderID where
  availabilityZone : List Char
  region : List Char
  instanceID : List Char
deriving DecidableEq, Repr

/-- Split at the scheme separator, mirroring the anchored regular expression
prefix of `providerIDRegex` (`[^:]+://` must match at the first colon):
returns the (possibly empty) colon-free prefix before the first colon and the
remainder after a literal `://`, or nothing when the first colon is absent or
not followed by two slashes. -/
def slashSlash : List Char → Option (List Char)
  | '/' :: '/' :: r => some r
  | _ => none

/-- See the comment on `slashSlash`: the scheme-separator search itself. -/
def schemeSplit : List Char → Option (List Char × List Char)
  | [] => none
  | c :: rest =>
    if c = ':' then
      match slashSlash rest with
      | some r => some ([], r)
      | none => none
    else
      match schemeSplit rest with
      | none => none
      | some (p, r) => some (c :: p, r)

/-- Embedding of `VerifyProviderID`: the string matches
the regular expression anchored on both sides, i.e. it decomposes as a
nonempty colon-free scheme, `://`, and a nonempty remainder whose last
character is not a slash and whose other characters are matched by the dot,
which in Go's RE2 does not match a newline.  The negated classes of the
scheme and of the final character do match a newline, so only the middle
part excludes it. -/
def VerifyProviderID (s : List Char) : Bool :=
  match schemeSplit s with
  | none => false
  | some (p, r) =>
    decide (p ≠ []) && decide (r ≠ []) && decide (r.getLast? ≠ some '/') &&
    decide ('\n' ∉ r.dropLast)

/-- Embedding of `strings.Split(s, "/")` as used by `ParseProviderID`. -/
def splitSlash : List Char → List (List Char)
  | [] => [[]]
  | c :: rest =>
    if c = '/' then [] :: splitSlash rest
    else
      match splitSlash rest with
      | [] => [[c]]
      | h :: t => (c :: h) :: t

/-- Embedding of `ParseRegionFromAZ`: replacing all matches of the anchored
pattern of a single trailing lowercase letter with the empty string drops the
last character exactly when it is a lowercase ASCII letter. -/
def ParseRegionFromAZ (s : List Char) : List Char :=
  match s.getLast? with
  | none => s
  | some c => if 'a' ≤ c ∧ c ≤ 'z' then s.dropLast else s

/-- Embedding of `ParseProviderID`: verify, split on slashes, take the last
two segments as availability zone and instance id, derive the region. -/
def ParseProviderID (s : List Char) : Option ProviderID :=
  if VerifyProviderID s then
    let ss := splitSlash s
    let az := ss.getD (ss.length - 2) []
    let iid := ss.getD (ss.length - 1) []
    some { availabilityZone := az, region := ParseRegionFromAZ az, instanceID := iid }
  else none

/-- Embedding of the provider-identity formatting at
`controllers/node_controller.go:384`:
the Sprintf of the pattern aws:///zone/id applied to the instance placement
zone and instance id. -/
def FormatProviderID (az iid : List Char) : List Char :=
  ("aws:///".data) ++ az ++ '/' :: iid

/-! ### Codec lemmas -/

theorem slashSlash_eq_some {l r : List Char} (h : slashSlash l = some r) :
    l = '/' :: '/' :: r := by
  unfold slashSlash at h
  split at h
  · simp only [Option.some.injEq] at h
    simp [h]
  · exact absurd h (by simp)

theorem schemeSplit_sound {s p r : List Char} (h : schemeSplit s = some (p, r)) :
    s = p ++ ':' :: '/' :: '/' :: r ∧ ':' ∉ p := by
  induction s generalizing p r with
  | nil => simp [schemeSplit] at h
  | cons c rest ih =>
    rw [schemeSplit] at h
    by_cases hc : c = ':'
    · rw [if_pos hc] at h
      split at h
      · next r0 heq =>
        simp only [Option.some.injEq, Prod.mk.injEq] at h
        obtain ⟨hp, hr⟩ := h
        subst hc; subst hr
        rw [← hp, slashSlash_eq_some heq]
        simp
      · exact absurd h (by simp)
    · rw [if_neg hc] at h
      split at h
      · exact absurd h (by simp)
      · next p0 r0 heq =>
        simp only [Option.some.injEq, Prod.mk.injEq] at h
        obtain ⟨hp, hr⟩ := h
        subst hr
        obtain ⟨he, hnotin⟩ := ih heq
        refine ⟨?_, ?_⟩
        · rw [← hp, he]; rfl
        · rw [← hp]
          intro hmem
          rcases List.mem_cons.mp hmem with h1 | h2
          · exact hc h1.symm
          · exact hnotin h2

theorem schemeSplit_complete {p r : List Char} (hp : ':' ∉ p) :
    schemeSplit (p ++ ':' :: '/' :: '/' :: r) = some (p, r) := by
  induction p with
  | nil => rfl
  | cons c p0 ih =>
    have hc : c ≠ ':' := fun h => hp (h ▸ List.mem_cons_self c p0)
    have hp0 : ':' ∉ p0 := fun h => hp (List.mem_cons_of_mem c h)
    rw [List.cons_append, schemeSplit, if_neg hc, ih hp0]

theorem splitSlash_ne_nil (s : List Char) : splitSlash s ≠ [] := by
  induction s with
  | nil => simp [splitSlash]
  | cons c rest ih =>
    rw [splitSlash]
    by_cases hc : c = '/'
    · simp [hc]
    · rw [if_neg hc]
      match h : splitSlash rest with
      | [] => exact absurd h ih
      | h0 :: t0 => simp

theorem splitSlash_append {l r : List Char} (hl : '/' ∉ l) :
    splitSlash (l ++ '/' :: r) = l :: splitSlash r := by
  induction l with
  | nil => simp [splitSlash]
  | cons c l0 ih =>
    have hc : c ≠ '/' := fun h => hl (h ▸ List.mem_cons_self c l0)
    have hl0 : '/' ∉ l0 := fun h => hl (List.mem_cons_of_mem c h)
    rw [List.cons_append, splitSlash, if_neg hc, ih hl0]

theorem splitSlash_no_slash {l : List Char} (hl : '/' ∉ l) :
    splitSlash l = [l] := by
  induction l with
  | nil => rfl
  | cons c l0 ih =>
    have hc : c ≠ '/' := fun h => hl (h ▸ List.mem_cons_self c l0)
    have hl0 : '/' ∉ l0 := fun h => hl (List.mem_cons_of_mem c h)
    rw [splitSlash, if_neg hc, ih hl0]

theorem splitSlash_cons_slash (r : List Char) :
    splitSlash ('/' :: r) = [] :: splitSlash r := by
  rw [splitSlash]; simp

theorem getLast?_no_slash {iid : List Char} (hid : '/' ∉ iid) :
    iid.getLast? ≠ some '/' := by
  intro h
  obtain ⟨hh, he⟩ := List.mem_getLast?_eq_getLast (l := iid) (x := '/') (by rw [h]; rfl)
  exact hid (he ▸ List.getLast_mem hh)

theorem verify_format {az iid : List Char} (hid : '/' ∉ iid) (hne : iid ≠ [])
    (haznl : '\n' ∉ az) (hidnl : '\n' ∉ iid) :
    VerifyProviderID (FormatProviderID az iid) = true := by
  have h1 : FormatProviderID az iid =
      ['a', 'w', 's'] ++ ':' :: '/' :: '/' :: ('/' :: (az ++ '/' :: iid)) := rfl
  rw [VerifyProviderID, h1, schemeSplit_complete (by decide)]
  have h2 : ('/' :: (az ++ '/' :: iid)).getLast? = iid.getLast? := by
    rw [show ('/' :: (az ++ '/' :: iid)) = ('/' :: az) ++ '/' :: iid from rfl,
        List.getLast?_append_cons]
    cases iid with
    | nil => exact absurd rfl hne
    | cons b t => exact List.getLast?_append_cons ['/'] b t
  have h3 : '\n' ∉ ('/' :: (az ++ '/' :: iid)).dropLast := by
    intro hx
    have hx2 : '\n' ∈ ('/' :: (az ++ '/' :: iid)) := List.mem_of_mem_dropLast hx
    rcases List.mem_cons.mp hx2 with h4 | h4
    · exact absurd h4 (by decide)
    · rcases List.mem_append.mp h4 with h5 | h5
      · exact haznl h5
      · rcases List.mem_cons.mp h5 with h6 | h6
        · exact absurd h6 (by decide)
        · exact hidnl h6
  simp [h2, getLast?_no_slash hid, h3]

theorem parse_format {az iid : List Char} (haz : '/' ∉ az) (hid : '/' ∉ iid)
    (hne : iid ≠ []) (haznl : '\n' ∉ az) (hidnl : '\n' ∉ iid) :
    ParseProviderID (FormatProviderID az iid) =
      some { availabilityZone := az, region := ParseRegionFromAZ az, instanceID := iid } := by
  have hsplit : splitSlash (FormatProviderID az iid) =
      [['a', 'w', 's', ':'], [], [], az, iid] := by
    have h1 : FormatProviderID az iid =
        ['a', 'w', 's', ':'] ++ '/' :: ('/' :: '/' :: (az ++ '/' :: iid)) := rfl
    rw [h1, splitSlash_append (by decide), splitSlash_cons_slash, splitSlash_cons_slash,
        splitSlash_append haz, splitSlash_no_slash hid]
  rw [ParseProviderID, if_pos (verify_format hid hne haznl hidnl)]
  simp [hsplit, List.getD]

/-! ### Claim theorems for the codec -/

/-- C2, counterexample: the string gce:///us-east-1a/i-1 is a valid canonical
identity string (it matches the scheme, zone and id shape accepted by
`VerifyProviderID`), yet re-formatting its parse yields aws:///us-east-1a/i-1,
not the original string, because the formatting step hardcodes the aws scheme
with an empty middle part.  So format-after-parse is not the identity on all
valid canonical identity strings. -/
theorem c2_roundtrip_counterexample :
    VerifyProviderID ("gce:///us-east-1a/i-1".data) = true ∧
    (ParseProviderID ("gce:///us-east-1a/i-1".data)).map
      (fun p => FormatProviderID p.availabilityZone p.instanceID) ≠
      some ("gce:///us-east-1a/i-1".data) := by decide

/-- C2, amended: for every canonical identity string in the image of the
formatting step itself, that is every string aws:///zone/id with a slash-free
newline-free zone and a slash-free newline-free nonempty id, the string is
accepted by the verifier (whose dot segment, like Go's RE2 dot, does not
match a newline) and formatting the parsed fields yields the original
string. -/
theorem c2_format_parse_roundtrip (az iid : List Char)
    (haz : '/' ∉ az) (hid : '/' ∉ iid) (hne : iid ≠ [])
    (haznl : '\n' ∉ az) (hidnl : '\n' ∉ iid) :
    VerifyProviderID (FormatProviderID az iid) = true ∧
    (ParseProviderID (FormatProviderID az iid)).map
      (fun p => FormatProviderID p.availabilityZone p.instanceID) =
      some (FormatProviderID az iid) := by
  refine ⟨verify_format hid hne haznl hidnl, ?_⟩
  rw [parse_format haz hid hne haznl hidnl]
  rfl

/-- Witness for `c2_format_parse_roundtrip` at zone us-east-1a and id i-012. -/
theorem c2_format_parse_roundtrip_witness :
    VerifyProviderID (FormatProviderID ("us-east-1a".data) ("i-012".data)) = true ∧
    (ParseProviderID (FormatProviderID ("us-east-1a".data) ("i-012".data))).map
      (fun p => FormatProviderID p.availabilityZone p.instanceID) =
      some (FormatProviderID ("us-east-1a".data) ("i-012".data)) :=
  c2_format_parse_roundtrip ("us-east-1a".data) ("i-012".data)
    (by decide) (by decide) (by decide) (by decide) (by decide)

/-- A string has the scheme separator when it decomposes as a nonempty
colon-free scheme followed by a literal colon-slash-slash. -/
def HasSchemeSep (s : List Char) : Prop :=
  ∃ p r, p ≠ [] ∧ ':' ∉ p ∧ s = p ++ ':' :: '/' :: '/' :: r

/-- C3, counterexample: the string aws://x has the scheme separator but only a
single slash-delimited trailing segment after it, so under the claim parse
should fail; instead `ParseProviderID` accepts it, returning the empty segment
between the separator slashes as the availability zone and x as the
instance id. -/
theorem c3_too_few_segments_counterexample :
    ParseProviderID ("aws://x".data) =
      some { availabilityZone := [], region := [], instanceID := ['x'] } := by decide

/-- C3, amended: parse fails, with no partial value, on every string missing
the scheme separator and on every string with a trailing slash; but a
string with fewer than two slash-delimited trailing segments after the scheme
separator is not rejected (see the counterexample): the empty segment inside
the separator serves as the zone. -/
theorem c3_parse_rejects_malformed (s : List Char)
    (h : ¬ HasSchemeSep s ∨ s.getLast? = some '/') :
    ParseProviderID s = none := by
  rw [ParseProviderID, if_neg]
  intro hv
  rw [VerifyProviderID] at hv
  split at hv
  · exact absurd hv (by simp)
  · next p r heq =>
    simp only [Bool.and_eq_true, decide_eq_true_eq] at hv
    obtain ⟨⟨⟨hp, hr⟩, hlast⟩, hnl⟩ := hv
    obtain ⟨he, hnotin⟩ := schemeSplit_sound heq
    rcases h with h1 | h2
    · exact h1 ⟨p, r, hp, hnotin, he⟩
    · rw [he, show p ++ ':' :: '/' :: '/' :: r = (p ++ [':', '/', '/']) ++ r by simp,
          List.getLast?_append_of_ne_nil _ hr] at h2
      exact hlast h2

/-- Witness for `c3_parse_rejects_malformed` on the trailing-slash input
aws:///us-east-1a/i-1/. -/
theorem c3_parse_rejects_malformed_witness :
    (¬ HasSchemeSep ("aws:///us-east-1a/i-1/".data) ∨
      ("aws:///us-east-1a/i-1/".data).getLast? = some '/') ∧
    ParseProviderID ("aws:///us-east-1a/i-1/".data) = none :=
  ⟨Or.inr (by decide), c3_parse_rejects_malformed _ (Or.inr (by decide))⟩

/-! ## Compute backend data model (internal/aws/ec2.go)

Go pointers inside AWS SDK records are `Option`; `aws.StringValue`,
`aws.BoolValue` and `aws.Int64Value` dereference with a zero default. -/

def stringValue (o : Option (List Char)) : List Char := o.getD []

def boolValue (o : Option Bool) : Bool := o.getD false

def int64Value (o : Option Int) : Int := o.getD 0

/-- Elastic-IP association of a network interface. -/
structure InstanceAssociation where
  publicDnsName : Option (List Char)
  publicIp : Option (List Char)
deriving DecidableEq, Repr

structure NetworkInterface where
  privateDnsName : Option (List Char)
  privateIpAddress : Option (List Char)
  association : Option InstanceAssociation
deriving DecidableEq, Repr

structure InstanceState where
  name : Option (List Char)
deriving DecidableEq, Repr

structure Placement where
  availabilityZone : Option (List Char)
deriving DecidableEq, Repr

/-- The slice of `ec2.Instance` that the sources read. -/
structure Ec2Instance where
  instanceId : Option (List Char)
  placement : Option Placement
  state : Option InstanceState
  networkInterfaces : List NetworkInterface
deriving DecidableEq, Repr

structure SecurityGroup where
  groupId : Option (List Char)
deriving DecidableEq, Repr

structure Ec2Subnet where
  subnetId : Option (List Char)
  mapPublicIpOnLaunch : Option Bool
  availableIpAddressCount : Option Int
deriving DecidableEq, Repr

/-- Raw result of one AWS SDK call: success, an error implementing
awserr.Error with the given code, or a plain error. -/
inductive SdkResult (α : Type) where
  | ok (a : α)
  | awsErr (code : List Char)
  | err (msg : List Char)
deriving DecidableEq, Repr

/-- Error value propagated by the adapter helpers. -/
inductive BackendError where
  | aws (code : List Char)
  | other (msg : List Char)
deriving DecidableEq, Repr

/-- Result of a helper that can fail but not panic. -/
inductive Fetched (α : Type) where
  | ok (a : α)
  | err (e : BackendError)
deriving DecidableEq, Repr

/-- The filter set sent by `LaunchInstance` to DescribeSubnets. -/
structure SubnetsQuery where
  vpcID : List Char
  state : List Char
  availabilityZone : Option (List Char)
  subnetIDs : Option (List (List Char))
deriving DecidableEq, Repr

structure IamProfile where
  arn : Option (List Char)
  name : Option (List Char)
deriving DecidableEq, Repr

structure BlockDeviceMapping where
  deviceName : List Char
  volumeSize : Int
  volumeType : List Char
  encrypted : Bool
deriving DecidableEq, Repr

/-- The RunInstances request as `LaunchInstance` assembles it. -/
structure RunInstancesInput where
  imageId : List Char
  instanceType : List Char
  keyName : List Char
  maxCount : Int
  minCount : Int
  tags : List (List Char × List Char)
  userData : List Char
  iamInstanceProfile : IamProfile
  blockDeviceMappings : List BlockDeviceMapping
  securityGroupIds : List (Option (List Char))
  subnetId : Option (List Char)
  placementAvailabilityZone : Option (List Char)
deriving DecidableEq, Repr

/-- Oracle for the EC2 API: what each raw SDK call would return, keyed by its
request.  Reservations are lists of instance lists, as in the SDK response.
The random subnet pick is modeled by the oracle index `randIdx`, reduced
modulo the eligible count exactly as a random draw from the eligible set. -/
structure Backend where
  describeInstances : List Char → SdkResult (List (List Ec2Instance))
  terminateInstances : List Char → Option BackendError
  describeSecurityGroups : List (List Char) → SdkResult (List SecurityGroup)
  describeSubnets : SubnetsQuery → SdkResult (List Ec2Subnet)
  runInstances : RunInstancesInput → SdkResult (List Ec2Instance)
  randIdx : Nat

/-- Error code constant `InstanceNotFound` from internal/aws/ec2.go. -/
def InstanceNotFound : List Char := "InvalidInstanceID.NotFound".data

def instanceStateNamePending : List Char := "pending".data
def instanceStateNameRunning : List Char := "running".data
def instanceStateNameShuttingDown : List Char := "shutting-down".data
def instanceStateNameTerminated : List Char := "terminated".data
def instanceStateNameStopping : List Char := "stopping".data
def instanceStateNameStopped : List Char := "stopped".data

/-- Embedding of `DescribeInstance`: a not-found coded error and an empty
first reservation both come back as the value pair of no instance and
false, never as an error; any other error is propagated. -/
def DescribeInstance (b : Backend) (instanceID : List Char) :
    Fetched (Option Ec2Instance × Bool) :=
  match b.describeInstances instanceID with
  | .awsErr code =>
      if code = InstanceNotFound then .ok (none, false)
      else .err (.aws code)
  | .err msg => .err (.other msg)
  | .ok reservations =>
      match reservations with
      | (inst :: _) :: _ => .ok (some inst, true)
      | _ => .ok (none, false)

/-- Result of `DescribeInstanceStatus`; `panicked` models the nil-pointer
dereference of `instance.State` on an instance record with no state. -/
inductive StatusResult where
  | ok (state : List Char)
  | err (e : BackendError)
  | panicked
deriving DecidableEq, Repr

/-- Embedding of `DescribeInstanceStatus`: not-found becomes the synthetic
terminated state; otherwise the state name of the described instance. -/
def DescribeInstanceStatus (b : Backend) (instanceID : List Char) : StatusResult :=
  match DescribeInstance b instanceID with
  | .err e => .err e
  | .ok (_, false) => .ok instanceStateNameTerminated
  | .ok (inst?, true) =>
    match inst? with
    | none => .panicked
    | some inst =>
      match inst.state with
      | none => .panicked
      | some st => .ok (stringValue st.name)

/-- C7: when the backend reports the instance as not found (the coded
not-found error), `DescribeInstance` returns the value pair of no instance
and false with no error, and `DescribeInstanceStatus` returns the synthetic
terminal state terminated with no error; any other backend error — a
different aws error code or a plain error — is propagated as an error by
both. -/
theorem c7_not_found_is_a_value (b : Backend) (iid : List Char) :
    (b.describeInstances iid = .awsErr InstanceNotFound →
      DescribeInstance b iid = .ok (none, false) ∧
      DescribeInstanceStatus b iid = .ok instanceStateNameTerminated) ∧
    (∀ code, code ≠ InstanceNotFound → b.describeInstances iid = .awsErr code →
      DescribeInstance b iid = .err (.aws code) ∧
      DescribeInstanceStatus b iid = .err (.aws code)) ∧
    (∀ msg, b.describeInstances iid = .err msg →
      DescribeInstance b iid = .err (.other msg) ∧
      DescribeInstanceStatus b iid = .err (.other msg)) := by
  refine ⟨?_, ?_, ?_⟩
  · intro h
    have hd : DescribeInstance b iid = .ok (none, false) := by
      rw [DescribeInstance, h]; simp
    exact ⟨hd, by rw [DescribeInstanceStatus, hd]⟩
  · intro code hcode h
    have hd : DescribeInstance b iid = .err (.aws code) := by
      rw [DescribeInstance, h]; simp [hcode]
    exact ⟨hd, by rw [DescribeInstanceStatus, hd]⟩
  · intro msg h
    have hd : DescribeInstance b iid = .err (.other msg) := by
      rw [DescribeInstance, h]
    exact ⟨hd, by rw [DescribeInstanceStatus, hd]⟩

/-- A fixed oracle backend used by closed witnesses: the instance is unknown
to the backend, every other call fails. -/
def notFoundBackend : Backend where
  describeInstances := fun _ => .awsErr InstanceNotFound
  terminateInstances := fun _ => none
  describeSecurityGroups := fun _ => .err ("unused".data)
  describeSubnets := fun _ => .err ("unused".data)
  runInstances := fun _ => .err ("unused".data)
  randIdx := 0

/-- Witness for `c7_not_found_is_a_value` on the backend that reports
not-found for instance id i-0. -/
theorem c7_not_found_is_a_value_witness :
    DescribeInstance notFoundBackend ("i-0".data) = .ok (none, false) ∧
    DescribeInstanceStatus notFoundBackend ("i-0".data) =
      .ok instanceStateNameTerminated :=
  (c7_not_found_is_a_value notFoundBackend ("i-0".data)).1 rfl

/-! ## CloudMachine record model (api/v1alpha1) -/

/-- Finalizer constant `MachineFinalizer` from the api package. -/
def MachineFinalizer : List Char := "awsmachine.infrastructure.crit.sh".data

structure AWSBlockDeviceMapping where
  deviceName : List Char
  volumeSize : Int
  volumeType : List Char
  encrypted : Bool
deriving DecidableEq, Repr

/-- Reference to a per-machine credentials secret; only the name is read. -/
structure SecretRef where
  name : List Char
deriving DecidableEq, Repr

structure AWSMachineSpec where
  providerID : Option (List Char)
  ami : List Char
  blockDevices : List AWSBlockDeviceMapping
  instanceType : List Char
  iamInstanceProfile : List Char
  keyName : List Char
  tags : List (List Char × List Char)
  securityGroupIDs : List (List Char)
  securityGroupNames : List (List Char)
  availabilityZone : List Char
  region : List Char
  subnetIDs : List (List Char)
  publicIP : Bool
  vpcID : List Char
  secretRef : Option SecretRef
deriving DecidableEq, Repr

inductive MachineAddressType where
  | internalDNS
  | internalIP
  | externalDNS
  | externalIP
deriving DecidableEq, Repr

structure MachineAddress where
  type : MachineAddressType
  address : List Char
deriving DecidableEq, Repr

structure AWSMachineStatus where
  ready : Bool
  addresses : List MachineAddress
  instanceState : List Char
  failureReason : Option (List Char)
  failureMessage : Option (List Char)
deriving DecidableEq, Repr

/-- The CloudMachine record: object metadata slice read by the reconciler
(name, deletion timestamp where none models the zero timestamp, finalizer
list) plus spec and status. -/
structure AWSMachine where
  name : List Char
  deletionTimestamp : Option Nat
  finalizers : List (List Char)
  spec : AWSMachineSpec
  status : AWSMachineStatus
deriving DecidableEq, Repr

/-! ## LaunchInstance (internal/aws/ec2.go) -/

/-- Errors `LaunchInstance` can produce: a propagated SDK error, the
cannot-determine-subnet error (used both when the subnet query returns
nothing and when no described subnet passes the eligibility filter), and the
no-instances error when RunInstances returns an empty instance list.  There
is no security-group-related error constructor because the source constructs
none. -/
inductive LaunchError where
  | backend (e : BackendError)
  | cannotDetermineSubnet (vpcID : List Char)
  | noInstances
deriving DecidableEq, Repr

inductive LaunchResult where
  | ok (inst : Ec2Instance)
  | err (e : LaunchError)
deriving DecidableEq, Repr

/-- Embedding of `strings.HasPrefix(s, "arn")`. -/
def startsWithArn : List Char → Bool
  | 'a' :: 'r' :: 'n' :: _ => true
  | _ => false

def convertBlockDevices (bds : List AWSBlockDeviceMapping) : List BlockDeviceMapping :=
  bds.map (fun b =>
    { deviceName := b.deviceName, volumeSize := b.volumeSize,
      volumeType := b.volumeType, encrypted := b.encrypted })

/-- Embedding of `convertTags`; the Go map iteration order is modeled as the
order of the association list. -/
def convertTags (tags : List (List Char × List Char)) : List (List Char × List Char) :=
  tags.map (fun t => (t.1, t.2))

/-- Embedding of `LaunchInstance`: assemble the RunInstances request, resolve
security-group names to ids (appending whatever resolved, possibly nothing),
query and filter subnets, pick one uniformly among the eligible ids, and run
the instance. -/
def LaunchInstance (b : Backend) (m : AWSMachine) (userData : List Char) : LaunchResult :=
  let baseInput : RunInstancesInput :=
    { imageId := m.spec.ami
      instanceType := m.spec.instanceType
      keyName := m.spec.keyName
      maxCount := 1
      minCount := 1
      tags := convertTags m.spec.tags
      userData := userData
      iamInstanceProfile :=
        if startsWithArn m.spec.iamInstanceProfile then
          { arn := some m.spec.iamInstanceProfile, name := none }
        else
          { arn := none, name := some m.spec.iamInstanceProfile }
      blockDeviceMappings := convertBlockDevices m.spec.blockDevices
      securityGroupIds := []
      subnetId := none
      placementAvailabilityZone := none }
  let idInput :=
    if m.spec.securityGroupIDs ≠ [] then
      { baseInput with securityGroupIds := m.spec.securityGroupIDs.map some }
    else baseInput
  let sgStep : Fetched RunInstancesInput :=
    if m.spec.securityGroupNames = [] then .ok idInput
    else
      match b.describeSecurityGroups m.spec.securityGroupNames with
      | .awsErr code => .err (.aws code)
      | .err msg => .err (.other msg)
      | .ok sgs =>
          .ok { idInput with
                securityGroupIds :=
                  idInput.securityGroupIds ++ sgs.map (fun g => g.groupId) }
  match sgStep with
  | .err e => .err (.backend e)
  | .ok input =>
    let q : SubnetsQuery :=
      { vpcID := m.spec.vpcID
        state := "available".data
        availabilityZone :=
          if m.spec.availabilityZone ≠ [] then some m.spec.availabilityZone else none
        subnetIDs := if m.spec.subnetIDs ≠ [] then some m.spec.subnetIDs else none }
    match b.describeSubnets q with
    | .awsErr code => .err (.backend (.aws code))
    | .err msg => .err (.backend (.other msg))
    | .ok subnets =>
      if subnets = [] then .err (.cannotDetermineSubnet m.spec.vpcID)
      else
        let eligible := (subnets.filter (fun s =>
            decide (boolValue s.mapPublicIpOnLaunch = m.spec.publicIP) &&
            decide (¬ int64Value s.availableIpAddressCount < 1))).map
          (fun s => stringValue s.subnetId)
        if eligible = [] then .err (.cannotDetermineSubnet m.spec.vpcID)
        else
          let input2 := { input with
            subnetId := some (eligible.getD (b.randIdx % eligible.length) [])
            placementAvailabilityZone :=
              if m.spec.availabilityZone ≠ [] then some m.spec.availabilityZone else none }
          match b.runInstances input2 with
          | .awsErr code => .err (.backend (.aws code))
          | .err msg => .err (.backend (.other msg))
          | .ok instances =>
            match instances with
            | inst :: _ => .ok inst
            | [] => .err .noInstances

/-! ### Claim theorems for LaunchInstance -/

/-- Zero value of the spec, for building concrete records. -/
def specZero : AWSMachineSpec :=
  { providerID := none, ami := [], blockDevices := [], instanceType := [],
    iamInstanceProfile := [], keyName := [], tags := [], securityGroupIDs := [],
    securityGroupNames := [], availabilityZone := [], region := [], subnetIDs := [],
    publicIP := false, vpcID := [], secretRef := none }

/-- Zero value of the status. -/
def statusZero : AWSMachineStatus :=
  { ready := false, addresses := [], instanceState := [], failureReason := none,
    failureMessage := none }

/-- A concrete running instance record. -/
def sampleInstance : Ec2Instance :=
  { instanceId := some ("i-0a".data)
    placement := some { availabilityZone := some ("us-east-1a".data) }
    state := some { name := some instanceStateNameRunning }
    networkInterfaces := [{ privateDnsName := some ("ip-10-0-0-1.internal".data)
                            privateIpAddress := some ("10.0.0.1".data)
                            association := none }] }

/-- A concrete eligible subnet. -/
def sampleSubnet : Ec2Subnet :=
  { subnetId := some ("subnet-1".data), mapPublicIpOnLaunch := some false,
    availableIpAddressCount := some 10 }

/-- Oracle backend for the launch scenarios: security-group names resolve to
no groups at all, one eligible subnet, RunInstances succeeds. -/
def launchBackend : Backend :=
  { describeInstances := fun _ => .err ("unused".data)
    terminateInstances := fun _ => none
    describeSecurityGroups := fun _ => .ok []
    describeSubnets := fun _ => .ok [sampleSubnet]
    runInstances := fun _ => .ok [sampleInstance]
    randIdx := 0 }

/-- A machine that supplies one security-group name. -/
def c8Machine : AWSMachine :=
  { name := "m0".data, deletionTimestamp := none, finalizers := [],
    spec := { specZero with securityGroupNames := ["web".data] },
    status := statusZero }

/-- C8, counterexample: the machine supplies the security-group name web, the
backend resolves it to no group ids at all, yet `LaunchInstance` succeeds and
returns the launched instance — it does not fail with any
no-eligible-security-group error (no such error exists in `LaunchError`). -/
theorem c8_no_group_error_counterexample :
    c8Machine.spec.securityGroupNames ≠ [] ∧
    launchBackend.describeSecurityGroups c8Machine.spec.securityGroupNames = .ok [] ∧
    LaunchInstance launchBackend c8Machine [] = .ok sampleInstance := by decide

/-- C8, amended: when security-group names are supplied but none of them
resolves to a group id, launch does not fail on that account: the invocation
behaves exactly as if no names had been supplied, proceeding with only the
explicitly supplied group ids. -/
theorem c8_unresolved_names_behave_as_no_names (b : Backend) (m : AWSMachine)
    (userData : List Char)
    (hnames : m.spec.securityGroupNames ≠ [])
    (hres : b.describeSecurityGroups m.spec.securityGroupNames = .ok []) :
    LaunchInstance b m userData =
      LaunchInstance b
        { m with spec := { m.spec with securityGroupNames := [] } } userData := by
  simp [LaunchInstance, hnames, hres]

/-- Witness for `c8_unresolved_names_behave_as_no_names` at the concrete
launch scenario. -/
theorem c8_unresolved_names_behave_as_no_names_witness :
    LaunchInstance launchBackend c8Machine [] =
      LaunchInstance launchBackend
        { c8Machine with spec := { c8Machine.spec with securityGroupNames := [] } } [] :=
  c8_unresolved_names_behave_as_no_names launchBackend c8Machine []
    (by decide) (by decide)

/-! ## Deletion protocol (controllers/node_controller.go, reconcileDelete) -/

/-- Error values surfaced by the lifecycle reconciler and its helpers.  A
`requeueAfter` is the wrapped RequeueAfterError carrying the requested delay
in seconds; `unknownState` is the fatal error naming the machine and the
unexpected backend state. -/
inductive GoError where
  | requeueAfter (seconds : Nat)
  | invalidProviderID (s : List Char)
  | unknownState (machineName state : List Char)
  | missingCloudConfig (secretName : List Char)
  | launch (e : LaunchError)
  | backend (e : BackendError)
deriving DecidableEq, Repr

/-- Outcome of a helper invocation: success, an error value, or a Go panic. -/
inductive ExecResult where
  | ok
  | err (e : GoError)
  | panicked
deriving DecidableEq, Repr

structure DeleteOut where
  result : ExecResult
  terminateCalls : Nat
deriving DecidableEq, Repr

/-- Embedding of `TerminateInstance`: a single TerminateInstances call. -/
def TerminateInstance (b : Backend) (instanceID : List Char) : Option BackendError :=
  b.terminateInstances instanceID

/-- Embedding of `reconcileDelete`: dereference the provider identity
pointer (a panic when it is unset), parse it, describe the backend state and
branch exactly as the source switch does.  `terminateCalls` counts the
TerminateInstances calls the invocation issues. -/
def reconcileDelete (b : Backend) (am : AWSMachine) : DeleteOut :=
  match am.spec.providerID with
  | none => { result := .panicked, terminateCalls := 0 }
  | some pid =>
    match ParseProviderID pid with
    | none => { result := .err (.invalidProviderID pid), terminateCalls := 0 }
    | some p =>
      match DescribeInstanceStatus b p.instanceID with
      | .panicked => { result := .panicked, terminateCalls := 0 }
      | .err e => { result := .err (.backend e), terminateCalls := 0 }
      | .ok state =>
        if state = instanceStateNamePending then
          { result := .err (.requeueAfter 10), terminateCalls := 0 }
        else if state = instanceStateNameStopping then
          { result := .err (.requeueAfter 10), terminateCalls := 0 }
        else if state = instanceStateNameRunning ∨ state = instanceStateNameStopped then
          match TerminateInstance b p.instanceID with
          | some e => { result := .err (.backend e), terminateCalls := 1 }
          | none => { result := .err (.requeueAfter 10), terminateCalls := 1 }
        else if state = instanceStateNameShuttingDown then
          { result := .err (.requeueAfter 10), terminateCalls := 0 }
        else if state = instanceStateNameTerminated then
          { result := .ok, terminateCalls := 0 }
        else
          { result := .err (.unknownState am.name state), terminateCalls := 0 }

/-- C5: the deletion protocol maps the described backend state to its outcome
exactly as claimed: pending, stopping and shutting-down request a retry after
the fixed ten-second delay without terminating; running and stopped issue
exactly one terminate call and then (when the call succeeds) the same retry;
terminated is success without terminating; and every state outside the known
enumeration is an error naming that state, not a retry. -/
theorem c5_delete_protocol_state_mapping (b : Backend) (am : AWSMachine)
    (pid : List Char) (p : ProviderID) (s : List Char)
    (h1 : am.spec.providerID = some pid)
    (h2 : ParseProviderID pid = some p)
    (h3 : DescribeInstanceStatus b p.instanceID = .ok s) :
    ((s = instanceStateNamePending ∨ s = instanceStateNameStopping ∨
        s = instanceStateNameShuttingDown) →
      reconcileDelete b am = { result := .err (.requeueAfter 10), terminateCalls := 0 }) ∧
    ((s = instanceStateNameRunning ∨ s = instanceStateNameStopped) →
      (reconcileDelete b am).terminateCalls = 1 ∧
      (b.terminateInstances p.instanceID = none →
        (reconcileDelete b am).result = .err (.requeueAfter 10))) ∧
    (s = instanceStateNameTerminated →
      reconcileDelete b am = { result := .ok, terminateCalls := 0 }) ∧
    (s ∉ [instanceStateNamePending, instanceStateNameRunning,
          instanceStateNameShuttingDown, instanceStateNameTerminated,
          instanceStateNameStopping, instanceStateNameStopped] →
      reconcileDelete b am =
        { result := .err (.unknownState am.name s), terminateCalls := 0 }) := by
  have hrd : reconcileDelete b am =
      (if s = instanceStateNamePending then
        { result := .err (.requeueAfter 10), terminateCalls := 0 }
      else if s = instanceStateNameStopping then
        { result := .err (.requeueAfter 10), terminateCalls := 0 }
      else if s = instanceStateNameRunning ∨ s = instanceStateNameStopped then
        match TerminateInstance b p.instanceID with
        | some e => { result := .err (.backend e), terminateCalls := 1 }
        | none => { result := .err (.requeueAfter 10), terminateCalls := 1 }
      else if s = instanceStateNameShuttingDown then
        { result := .err (.requeueAfter 10), terminateCalls := 0 }
      else if s = instanceStateNameTerminated then
        { result := .ok, terminateCalls := 0 }
      else
        { result := .err (.unknownState am.name s), terminateCalls := 0 }) := by
    simp only [reconcileDelete, h1, h2, h3]
  refine ⟨?_, ?_, ?_, ?_⟩
  · rintro (h | h | h) <;> subst h <;> rw [hrd]
    · rw [if_pos rfl]
    · rw [if_neg (by decide), if_pos rfl]
    · rw [if_neg (by decide), if_neg (by decide), if_neg (by decide), if_pos rfl]
  · rintro (h | h) <;> subst h <;> rw [hrd] <;>
      rw [if_neg (by decide), if_neg (by decide), if_pos (by decide)] <;>
      refine ⟨?_, ?_⟩
    · cases hterm : TerminateInstance b p.instanceID <;> simp [hterm]
    · intro hnone
      have ht : TerminateInstance b p.instanceID = none := hnone
      rw [ht]
    · cases hterm : TerminateInstance b p.instanceID <;> simp [hterm]
    · intro hnone
      have ht : TerminateInstance b p.instanceID = none := hnone
      rw [ht]
  · intro h; subst h; rw [hrd]
    rw [if_neg (by decide), if_neg (by decide), if_neg (by decide),
        if_neg (by decide), if_pos rfl]
  · intro h
    simp only [List.mem_cons, List.mem_singleton, not_or] at h
    obtain ⟨hp1, hp2, hp3, hp4, hp5, hp6⟩ := h
    rw [hrd, if_neg hp1, if_neg hp5, if_neg (by simp [hp2, hp6]),
        if_neg hp3, if_neg hp4]

/-- A CloudMachine carrying the deletion marker, the finalizer and a
provider identity in zone us-east-1a with instance id i-0. -/
def delMachine : AWSMachine :=
  { name := "m1".data, deletionTimestamp := some 1, finalizers := [MachineFinalizer],
    spec := { specZero with providerID := some ("aws:///us-east-1a/i-0".data) },
    status := statusZero }

/-- Witness for `c5_delete_protocol_state_mapping`: against the backend that
no longer knows the instance the protocol reports success without a
terminate call. -/
theorem c5_delete_protocol_state_mapping_witness :
    reconcileDelete notFoundBackend delMachine = { result := .ok, terminateCalls := 0 } :=
  (c5_delete_protocol_state_mapping notFoundBackend delMachine
      ("aws:///us-east-1a/i-0".data)
      { availabilityZone := "us-east-1a".data, region := "us-east-1".data,
        instanceID := "i-0".data }
      instanceStateNameTerminated rfl (by decide) (by decide)).2.2.1 rfl

/-! ## Lifecycle reconciler (controllers/node_controller.go) -/

/-- Addresses contributed by one network interface, in source order. -/
def eniAddresses (eni : NetworkInterface) : List MachineAddress :=
  [{ type := .internalDNS, address := stringValue eni.privateDnsName },
   { type := .internalIP, address := stringValue eni.privateIpAddress }] ++
  (match eni.association with
   | none => []
   | some a =>
     [{ type := .externalDNS, address := stringValue a.publicDnsName },
      { type := .externalIP, address := stringValue a.publicIp }])

/-- Embedding of `getInstanceAddresses`.  The argument is the possibly nil
instance pointer it receives; the result is none exactly when reading
`instance.NetworkInterfaces` would dereference a nil pointer, a Go panic. -/
def getInstanceAddresses : Option Ec2Instance → Option (List MachineAddress)
  | none => none
  | some i => some (i.networkInterfaces.flatMap eniAddresses)

/-- The owning logical Machine: only the fields this reconciler reads or
writes.  The failure message holds the recorded error value (the source
stores its rendered string). -/
structure Machine where
  name : List Char
  configRefName : List Char
  failureReason : Option (List Char)
  failureMessage : Option GoError
deriving DecidableEq, Repr

/-- The owner's Config resource: readiness and the bootstrap-secret pointer. -/
structure MachineConfig where
  ready : Bool
  dataSecretName : Option (List Char)
deriving DecidableEq, Repr

/-- A keyed byte-map secret. -/
structure Secret where
  data : List (List Char × List Char)
deriving DecidableEq, Repr

def lookupPair (l : List (List Char × List Char)) (k : List Char) :
    Option (List Char) :=
  (l.find? (fun kv => kv.1 == k)).map (fun kv => kv.2)

/-- Oracle environment of one `AWSMachineReconciler.Reconcile` invocation:
the EC2 backend plus what each cluster API call would return.  The gzip and
base64 encodings of the bootstrap payload are uninterpreted total functions
(compress/gzip writing into a memory buffer cannot fail). -/
structure ReconcileEnv where
  backend : Backend
  ownerMachine : Fetched (Option Machine)
  getConfig : List Char → Fetched MachineConfig
  getSecret : List Char → Fetched Secret
  updateErr : Option BackendError
  patchErr : Option BackendError
  gzipData : List Char → List Char
  base64Encode : List Char → List Char

/-- Embedding of controllerutil.AddFinalizer: append when absent. -/
def addFinalizer (l : List (List Char)) (f : List Char) : List (List Char) :=
  if f ∈ l then l else l ++ [f]

/-- Embedding of controllerutil.RemoveFinalizer: drop every occurrence. -/
def removeFinalizer (l : List (List Char)) (f : List Char) : List (List Char) :=
  l.filter (fun x => !(x == f))

structure StatusOut where
  result : ExecResult
  am : AWSMachine
deriving DecidableEq, Repr

/-- Embedding of `reconcileStatus`: dereference and parse the provider
identity, describe the backend state into the status, and, while the record
is not yet ready, describe the instance — discarding the exists flag — and
extract addresses from the returned instance pointer. -/
def reconcileStatus (env : ReconcileEnv) (am : AWSMachine) : StatusOut :=
  match am.spec.providerID with
  | none => { result := .panicked, am := am }
  | some pid =>
    match ParseProviderID pid with
    | none => { result := .err (.invalidProviderID pid), am := am }
    | some p =>
      match DescribeInstanceStatus env.backend p.instanceID with
      | .panicked => { result := .panicked, am := am }
      | .err e => { result := .err (.backend e), am := am }
      | .ok state =>
        let am1 := { am with status := { am.status with instanceState := state } }
        if am1.status.ready then { result := .ok, am := am1 }
        else
          match DescribeInstance env.backend p.instanceID with
          | .err e => { result := .err (.backend e), am := am1 }
          | .ok (inst?, _found) =>
            match getInstanceAddresses inst? with
            | none => { result := .panicked, am := am1 }
            | some addrs =>
              { result := .ok,
                am := { am1 with status :=
                  { am1.status with addresses := addrs, ready := true } } }

/-- What one reconcile invocation hands back to the event-delivery
substrate. -/
inductive ReconcileResult where
  | done
  | requeueAfterSeconds (n : Nat)
  | err (e : GoError)
  | panicked
deriving DecidableEq, Repr

/-- Outcome of the part of `Reconcile` that runs once the owner is resolved
and the finalizer has been added. -/
structure BodyOut where
  result : ReconcileResult
  am : AWSMachine
  owner : Machine
  launchCalls : Nat
deriving DecidableEq, Repr

/-- The optional per-machine credentials lookup; a both-or-neither static
credential override has no observable effect on the oracle backend. -/
def credentialsStep (env : ReconcileEnv) (am : AWSMachine) : Fetched Unit :=
  match am.spec.secretRef with
  | none => .ok ()
  | some ref =>
    match env.getSecret ref.name with
    | .err e => .err e
    | .ok _ => .ok ()

/-- The branches of `Reconcile` that follow the deletion, terminal-failure
and owner checks: the provisioned status-refresh branch when the provider
identity is set, otherwise config readiness polling, bootstrap payload
fetch, launch, and recording of the derived identity and addresses.
`launchCalls` counts `LaunchInstance` invocations. -/
def reconcileBody (env : ReconcileEnv) (am : AWSMachine) (m : Machine) : BodyOut :=
  match am.spec.providerID with
  | some _ =>
    let st := reconcileStatus env am
    match st.result with
    | .ok => { result := .done, am := st.am, owner := m, launchCalls := 0 }
    | .err e => { result := .err e, am := st.am, owner := m, launchCalls := 0 }
    | .panicked => { result := .panicked, am := st.am, owner := m, launchCalls := 0 }
  | none =>
    match env.getConfig m.configRefName with
    | .err e => { result := .err (.backend e), am := am, owner := m, launchCalls := 0 }
    | .ok cfg =>
      if cfg.ready = false then
        { result := .requeueAfterSeconds 5, am := am, owner := m, launchCalls := 0 }
      else
        match cfg.dataSecretName with
        | none => { result := .panicked, am := am, owner := m, launchCalls := 0 }
        | some dsn =>
          match env.getSecret dsn with
          | .err e => { result := .err (.backend e), am := am, owner := m, launchCalls := 0 }
          | .ok s =>
            match lookupPair s.data ("cloud-config".data) with
            | none =>
              { result := .err (.missingCloudConfig dsn), am := am, owner := m,
                launchCalls := 0 }
            | some userData =>
              match credentialsStep env am with
              | .err e =>
                { result := .err (.backend e), am := am, owner := m, launchCalls := 0 }
              | .ok _ =>
                let encoded := env.base64Encode (env.gzipData userData)
                match LaunchInstance env.backend am encoded with
                | .err e =>
                  { result := .err (.launch e), am := am,
                    owner :=
                      { m with
                        failureReason := some ("CreateMachineError".data),
                        failureMessage := some (.launch e) },
                    launchCalls := 1 }
                | .ok inst =>
                  match inst.placement with
                  | none => { result := .panicked, am := am, owner := m, launchCalls := 1 }
                  | some pl =>
                    let pid := FormatProviderID (stringValue pl.availabilityZone)
                                 (stringValue inst.instanceId)
                    let addrs := (getInstanceAddresses (some inst)).getD []
                    let am1 := { am with
                      spec := { am.spec with providerID := some pid },
                      status := { am.status with addresses := addrs, ready := true } }
                    let st := reconcileStatus env am1
                    match st.result with
                    | .ok => { result := .done, am := st.am, owner := m, launchCalls := 1 }
                    | .err e => { result := .err e, am := st.am, owner := m, launchCalls := 1 }
                    | .panicked =>
                      { result := .panicked, am := st.am, owner := m, launchCalls := 1 }

/-- Full outcome of one reconcile invocation: the substrate result, the
in-memory record and owner at the end, what was persisted by Update or by
the deferred Patch (none when nothing was written or the write failed), and
ghost call counters. -/
structure ReconcileOut where
  result : ReconcileResult
  am : AWSMachine
  owner : Option Machine
  persisted : Option AWSMachine
  launchCalls : Nat
  terminateCalls : Nat
deriving DecidableEq, Repr

/-- Embedding of `AWSMachineReconciler.Reconcile` after a successful read of
the CloudMachine record.  On a deletion marker the protocol runs, its error
is only logged, the finalizer is removed unconditionally and the record
updated; a protocol panic propagates before the removal.  Otherwise:
terminal-failure check, owner check, patch-helper snapshot (modeled as
always succeeding), finalizer addition, then the body; the deferred patch
persists the body's record in every branch, panics included, and a patch
failure replaces a nil invocation error. -/
def Reconcile (env : ReconcileEnv) (am0 : AWSMachine) : ReconcileOut :=
  match am0.deletionTimestamp with
  | some _ =>
    let d := reconcileDelete env.backend am0
    match d.result with
    | .panicked =>
      { result := .panicked, am := am0, owner := none, persisted := none,
        launchCalls := 0, terminateCalls := d.terminateCalls }
    | _ =>
      let am1 := { am0 with finalizers := removeFinalizer am0.finalizers MachineFinalizer }
      match env.updateErr with
      | some e =>
        { result := .err (.backend e), am := am1, owner := none, persisted := none,
          launchCalls := 0, terminateCalls := d.terminateCalls }
      | none =>
        { result := .done, am := am1, owner := none, persisted := some am1,
          launchCalls := 0, terminateCalls := d.terminateCalls }
  | none =>
    match am0.status.failureMessage with
    | some _ =>
      { result := .done, am := am0, owner := none, persisted := none,
        launchCalls := 0, terminateCalls := 0 }
    | none =>
      match env.ownerMachine with
      | .err e =>
        { result := .err (.backend e), am := am0, owner := none, persisted := none,
          launchCalls := 0, terminateCalls := 0 }
      | .ok none =>
        { result := .done, am := am0, owner := none, persisted := none,
          launchCalls := 0, terminateCalls := 0 }
      | .ok (some m) =>
        let am1 := { am0 with finalizers := addFinalizer am0.finalizers MachineFinalizer }
        let body := reconcileBody env am1 m
        let persisted := if env.patchErr = none then some body.am else none
        let result :=
          match body.result, env.patchErr with
          | .done, some e => .err (.backend e)
          | .requeueAfterSeconds _, some e => .err (.backend e)
          | r, _ => r
        { result := result, am := body.am, owner := some body.owner,
          persisted := persisted, launchCalls := body.launchCalls, terminateCalls := 0 }

/-- Repeated invocation: each invocation reads back what the previous one
persisted (or the unchanged stored record when nothing was persisted) and
runs under its own environment.  Returns the final stored record and the
total number of launch calls. -/
def reconcileIter (envs : List ReconcileEnv) (am : AWSMachine) : AWSMachine × Nat :=
  match envs with
  | [] => (am, 0)
  | e :: rest =>
    let out := Reconcile e am
    let next := reconcileIter rest (out.persisted.getD am)
    (next.1, out.launchCalls + next.2)

/-! ## Node backfill (controllers/node_controller.go, NodeReconciler) -/

/-- Annotation key `NodeOwnerLabelName` from the api package. -/
def NodeOwnerLabelName : List Char := "infrastructure.crit.sh/awsmachine".data

/-- The compute node slice the backfill path reads. -/
structure Node where
  name : List Char
  providerID : List Char
  annots : List (List Char × List Char)
deriving DecidableEq, Repr

/-- Oracle environment of one `ensureAWSMachineForNode` invocation. -/
structure NodeEnv where
  backend : Backend
  listMachines : Fetched (List AWSMachine)
  createErr : Option BackendError
  setAnnotationErr : Option BackendError

/-- Embedding of `ensureAWSMachineForNode`: skip when the link annotation is
present; link an existing machine with a matching provider identity;
otherwise parse the node identity, describe the instance — discarding the
exists flag — extract addresses from the returned instance pointer, and
create the backfilled record.  The second component is the created record,
when one is created. -/
def ensureAWSMachineForNode (env : NodeEnv) (n : Node) :
    ExecResult × Option AWSMachine :=
  match lookupPair n.annots NodeOwnerLabelName with
  | some _ => (.ok, none)
  | none =>
    match env.listMachines with
    | .err e => (.err (.backend e), none)
    | .ok machines =>
      if machines.any (fun m => decide (m.spec.providerID = some n.providerID)) then
        match env.setAnnotationErr with
        | some e => (.err (.backend e), none)
        | none => (.ok, none)
      else
        match ParseProviderID n.providerID with
        | none => (.err (.invalidProviderID n.providerID), none)
        | some p =>
          match DescribeInstance env.backend p.instanceID with
          | .err e => (.err (.backend e), none)
          | .ok (inst?, _found) =>
            match getInstanceAddresses inst? with
            | none => (.panicked, none)
            | some addrs =>
              let am : AWSMachine :=
                { name := n.name, deletionTimestamp := none, finalizers := [],
                  spec := { specZero with providerID := some n.providerID },
                  status := { statusZero with addresses := addrs } }
              match env.createErr with
              | some e => (.err (.backend e), none)
              | none =>
                match env.setAnnotationErr with
                | some e => (.err (.backend e), some am)
                | none => (.ok, some am)

/-! ### Reconciler lemmas -/

theorem reconcileStatus_finalizers (env : ReconcileEnv) (am : AWSMachine) :
    (reconcileStatus env am).am.finalizers = am.finalizers := by
  unfold reconcileStatus
  dsimp only
  repeat' split
  all_goals simp

theorem reconcileStatus_deletionTimestamp (env : ReconcileEnv) (am : AWSMachine) :
    (reconcileStatus env am).am.deletionTimestamp = am.deletionTimestamp := by
  unfold reconcileStatus
  dsimp only
  repeat' split
  all_goals simp

theorem reconcileStatus_spec (env : ReconcileEnv) (am : AWSMachine) :
    (reconcileStatus env am).am.spec = am.spec := by
  unfold reconcileStatus
  dsimp only
  repeat' split
  all_goals simp

theorem reconcileBody_finalizers (env : ReconcileEnv) (am : AWSMachine) (m : Machine) :
    (reconcileBody env am m).am.finalizers = am.finalizers := by
  unfold reconcileBody
  dsimp only
  repeat' split
  all_goals simp [reconcileStatus_finalizers]

theorem reconcileBody_deletionTimestamp (env : ReconcileEnv) (am : AWSMachine)
    (m : Machine) :
    (reconcileBody env am m).am.deletionTimestamp = am.deletionTimestamp := by
  unfold reconcileBody
  dsimp only
  repeat' split
  all_goals simp [reconcileStatus_deletionTimestamp]

theorem reconcileBody_provisioned (env : ReconcileEnv) (am : AWSMachine) (m : Machine)
    (pid : List Char) (hpid : am.spec.providerID = some pid) :
    (reconcileBody env am m).launchCalls = 0 ∧
    (reconcileBody env am m).am.spec = am.spec := by
  unfold reconcileBody
  rw [hpid]
  dsimp only
  repeat' split
  all_goals simp [reconcileStatus_spec]

theorem mem_addFinalizer (l : List (List Char)) (f : List Char) :
    f ∈ addFinalizer l f := by
  unfold addFinalizer
  split
  · assumption
  · simp

theorem reconcileStatus_failureMessage (env : ReconcileEnv) (am : AWSMachine) :
    (reconcileStatus env am).am.status.failureMessage = am.status.failureMessage := by
  unfold reconcileStatus
  dsimp only
  repeat' split
  all_goals simp

theorem reconcileBody_failureMessage (env : ReconcileEnv) (am : AWSMachine)
    (m : Machine) :
    (reconcileBody env am m).am.status.failureMessage = am.status.failureMessage := by
  unfold reconcileBody
  dsimp only
  repeat' split
  all_goals simp [reconcileStatus_failureMessage]

theorem Reconcile_provisioned_step (env : ReconcileEnv) (am : AWSMachine)
    (pid : List Char)
    (hdt : am.deletionTimestamp = none)
    (hpid : am.spec.providerID = some pid) :
    (Reconcile env am).launchCalls = 0 ∧
    (Reconcile env am).am.spec = am.spec ∧
    (Reconcile env am).am.deletionTimestamp = none ∧
    (Reconcile env am).am.status.failureMessage = am.status.failureMessage ∧
    ((Reconcile env am).persisted = none ∨
      (Reconcile env am).persisted = some (Reconcile env am).am) := by
  obtain ⟨nm, dt, fin, sp, st⟩ := am
  dsimp only at hdt hpid
  subst hdt
  unfold Reconcile
  dsimp only
  cases hfm : st.failureMessage with
  | some e => simp [hfm]
  | none =>
    cases env.ownerMachine with
    | err e => simp [hfm]
    | ok mo =>
      cases mo with
      | none => simp [hfm]
      | some m =>
        dsimp only
        refine ⟨?_, ?_, ?_, ?_, ?_⟩
        · exact (reconcileBody_provisioned env
            ⟨nm, none, addFinalizer fin MachineFinalizer, sp, st⟩ m pid hpid).1
        · exact (reconcileBody_provisioned env
            ⟨nm, none, addFinalizer fin MachineFinalizer, sp, st⟩ m pid hpid).2
        · exact reconcileBody_deletionTimestamp env
            ⟨nm, none, addFinalizer fin MachineFinalizer, sp, st⟩ m
        · exact (reconcileBody_failureMessage env
            ⟨nm, none, addFinalizer fin MachineFinalizer, sp, st⟩ m).trans hfm
        · cases hpe : env.patchErr with
          | some e => left; simp [hpe]
          | none => right; simp [hpe]

/-- C4: a CloudMachine whose provider identity is already set and that is
not being deleted and has no terminal failure can be reconciled any number
of times, under arbitrary environments: no invocation ever calls launch and
the stored record's entire spec — its provider identity in particular — is
unchanged. -/
theorem c4_provisioned_never_relaunches (envs : List ReconcileEnv)
    (am : AWSMachine) (pid : List Char)
    (hdt : am.deletionTimestamp = none)
    (hfail : am.status.failureMessage = none)
    (hpid : am.spec.providerID = some pid) :
    (reconcileIter envs am).2 = 0 ∧
    (reconcileIter envs am).1.spec.providerID = some pid ∧
    (reconcileIter envs am).1.spec = am.spec := by
  induction envs generalizing am with
  | nil => exact ⟨rfl, hpid, rfl⟩
  | cons e rest ih =>
    obtain ⟨h0, hspec, hdt2, hfm2, hpers⟩ := Reconcile_provisioned_step e am pid hdt hpid
    have hnext : ((Reconcile e am).persisted.getD am).spec = am.spec ∧
        ((Reconcile e am).persisted.getD am).deletionTimestamp = none ∧
        ((Reconcile e am).persisted.getD am).status.failureMessage = none := by
      rcases hpers with hn | hs2
      · rw [hn]; exact ⟨rfl, hdt, hfail⟩
      · rw [hs2]
        refine ⟨hspec, hdt2, ?_⟩
        simp only [Option.getD_some]
        rw [hfm2, hfail]
    obtain ⟨hns, hnd, hnf⟩ := hnext
    have hnpid : ((Reconcile e am).persisted.getD am).spec.providerID = some pid := by
      rw [hns, hpid]
    obtain ⟨ih0, ihpid, ihspec⟩ := ih ((Reconcile e am).persisted.getD am) hnd hnf hnpid
    refine ⟨?_, ?_, ?_⟩
    · simp only [reconcileIter]
      rw [h0, ih0]
    · simp only [reconcileIter]
      exact ihpid
    · simp only [reconcileIter]
      rw [ihspec, hns]

/-- C6: on every invocation that passes the deletion, terminal-failure and
owner checks, the finalizer is added before any provisioning branch runs:
the record carries the finalizer at the end of the invocation — whatever
branch executed and however it ended — and so does everything the deferred
patch persisted. -/
theorem c6_finalizer_added_before_provisioning (env : ReconcileEnv)
    (am : AWSMachine) (m : Machine)
    (hdt : am.deletionTimestamp = none)
    (hfail : am.status.failureMessage = none)
    (howner : env.ownerMachine = .ok (some m)) :
    MachineFinalizer ∈ (Reconcile env am).am.finalizers ∧
    (∀ p, (Reconcile env am).persisted = some p → MachineFinalizer ∈ p.finalizers) := by
  obtain ⟨nm, dt, fin, sp, st⟩ := am
  dsimp only at hdt hfail
  subst hdt
  unfold Reconcile
  dsimp only
  rw [hfail]
  dsimp only
  rw [howner]
  dsimp only
  constructor
  · rw [reconcileBody_finalizers]
    exact mem_addFinalizer _ _
  · intro p hp
    cases hpe : env.patchErr with
    | some e => simp [hpe] at hp
    | none =>
      simp only [hpe, if_pos, Option.some.injEq] at hp
      rw [← hp, reconcileBody_finalizers]
      exact mem_addFinalizer _ _

/-- C9: when a CloudMachine that carries a deletion marker has no provider
identity set, the deletion path dereferences the nil provider-identity
pointer: the invocation panics — it does not return an error value — and
nothing is persisted, so in particular the finalizer is not removed. -/
theorem c9_delete_with_unset_identity_panics (env : ReconcileEnv)
    (am : AWSMachine)
    (hdt : am.deletionTimestamp ≠ none)
    (hpid : am.spec.providerID = none) :
    (Reconcile env am).result = .panicked ∧
    (∀ e, (Reconcile env am).result ≠ .err e) ∧
    (Reconcile env am).persisted = none := by
  have hrd : reconcileDelete env.backend am =
      { result := .panicked, terminateCalls := 0 } := by
    unfold reconcileDelete
    rw [hpid]
  cases hd : am.deletionTimestamp with
  | none => exact absurd hd hdt
  | some t =>
    unfold Reconcile
    rw [hd]
    dsimp only
    rw [hrd]
    exact ⟨rfl, by simp, rfl⟩

/-! ### Concrete environments and witnesses -/

/-- A stub environment: the backend that knows no instance, no owner, all
other calls fail, update and patch succeed. -/
def stubEnv : ReconcileEnv :=
  { backend := notFoundBackend, ownerMachine := .ok none,
    getConfig := fun _ => .err (.other ("unused".data)),
    getSecret := fun _ => .err (.other ("unused".data)),
    updateErr := none, patchErr := none,
    gzipData := fun d => d, base64Encode := fun d => d }

/-- A concrete owner machine. -/
def mOwner : Machine :=
  { name := "mach".data, configRefName := "cfg".data,
    failureReason := none, failureMessage := none }

/-- The stub environment with the owner resolved. -/
def ownerEnv : ReconcileEnv := { stubEnv with ownerMachine := .ok (some mOwner) }

/-- A provisioned machine: provider identity set, not deleted, no failure,
not yet ready, no finalizer. -/
def provMachine : AWSMachine :=
  { name := "m3".data, deletionTimestamp := none, finalizers := [],
    spec := { specZero with providerID := some ("aws:///us-east-1a/i-0".data) },
    status := statusZero }

/-- Witness for `c4_provisioned_never_relaunches`: two invocations, one
without and one with a resolvable owner, never launch and keep the spec. -/
theorem c4_provisioned_never_relaunches_witness :
    (reconcileIter [stubEnv, ownerEnv] provMachine).2 = 0 ∧
    (reconcileIter [stubEnv, ownerEnv] provMachine).1.spec.providerID =
      some ("aws:///us-east-1a/i-0".data) ∧
    (reconcileIter [stubEnv, ownerEnv] provMachine).1.spec = provMachine.spec :=
  c4_provisioned_never_relaunches [stubEnv, ownerEnv] provMachine
    ("aws:///us-east-1a/i-0".data) rfl rfl rfl

/-- Witness for `c6_finalizer_added_before_provisioning` at the concrete
provisioned machine under the environment with a resolved owner. -/
theorem c6_finalizer_added_before_provisioning_witness :
    MachineFinalizer ∈ (Reconcile ownerEnv provMachine).am.finalizers ∧
    (∀ p, (Reconcile ownerEnv provMachine).persisted = some p →
      MachineFinalizer ∈ p.finalizers) :=
  c6_finalizer_added_before_provisioning ownerEnv provMachine mOwner rfl rfl rfl

/-- A machine carrying the deletion marker and the finalizer but no provider
identity (deleted before it was ever launched). -/
def noPidDeletedMachine : AWSMachine :=
  { name := "m2".data, deletionTimestamp := some 1, finalizers := [MachineFinalizer],
    spec := specZero, status := statusZero }

/-- Witness for `c9_delete_with_unset_identity_panics`. -/
theorem c9_delete_with_unset_identity_panics_witness :
    (Reconcile stubEnv noPidDeletedMachine).result = .panicked ∧
    (∀ e, (Reconcile stubEnv noPidDeletedMachine).result ≠ .err e) ∧
    (Reconcile stubEnv noPidDeletedMachine).persisted = none :=
  c9_delete_with_unset_identity_panics stubEnv noPidDeletedMachine
    (by decide) rfl

/-- The backend that reports the concrete instance as running. -/
def runningBackend : Backend :=
  { describeInstances := fun _ => .ok [[sampleInstance]]
    terminateInstances := fun _ => none
    describeSecurityGroups := fun _ => .err ("unused".data)
    describeSubnets := fun _ => .err ("unused".data)
    runInstances := fun _ => .err ("unused".data)
    randIdx := 0 }

/-- The stub environment over the running backend. -/
def c1Env : ReconcileEnv := { stubEnv with backend := runningBackend }

/-- C1, evaluation at the failing input: `delMachine` carries the deletion
marker, the finalizer, and a provider identity whose instance the backend
reports as running.  The invocation issues exactly one terminate call — but
then removes the finalizer and persists the record in that same invocation,
returning success, although the backend state was running, not terminated:
the unconditional finalizer removal after `reconcileDelete` discards the
protocol's requeue signal. -/
theorem c1_finalizer_removed_despite_running :
    DescribeInstanceStatus runningBackend ("i-0".data) =
      .ok instanceStateNameRunning ∧
    delMachine.deletionTimestamp ≠ none ∧
    MachineFinalizer ∈ delMachine.finalizers ∧
    (Reconcile c1Env delMachine).terminateCalls = 1 ∧
    MachineFinalizer ∉ (Reconcile c1Env delMachine).am.finalizers ∧
    (Reconcile c1Env delMachine).persisted = some (Reconcile c1Env delMachine).am ∧
    (Reconcile c1Env delMachine).result = .done := by decide

/-- C10: both paths that discard the exists flag of describe crash on a
not-found instance.  The status-refresh path (record not yet ready) and the
node-backfill path (no link annotation, no matching machine) each receive
the value pair of no instance and false, pass the nil instance pointer to
`getInstanceAddresses`, and panic instead of treating not-found as a
value. -/
theorem c10_discarded_exists_flag_panics (env : ReconcileEnv) (nenv : NodeEnv)
    (am : AWSMachine) (n : Node) (pid : List Char) (p q : ProviderID)
    (ms : List AWSMachine)
    (hpid : am.spec.providerID = some pid)
    (hparse : ParseProviderID pid = some p)
    (hready : am.status.ready = false)
    (hnf : env.backend.describeInstances p.instanceID = .awsErr InstanceNotFound)
    (hlabel : lookupPair n.annots NodeOwnerLabelName = none)
    (hlist : nenv.listMachines = .ok ms)
    (hnomatch : ms.any (fun m0 => decide (m0.spec.providerID = some n.providerID)) = false)
    (hparse2 : ParseProviderID n.providerID = some q)
    (hnf2 : nenv.backend.describeInstances q.instanceID = .awsErr InstanceNotFound) :
    (reconcileStatus env am).result = .panicked ∧
    (ensureAWSMachineForNode nenv n).1 = .panicked := by
  have hd : DescribeInstance env.backend p.instanceID = .ok (none, false) := by
    unfold DescribeInstance
    rw [hnf]
    simp
  have hs : DescribeInstanceStatus env.backend p.instanceID =
      .ok instanceStateNameTerminated := by
    unfold DescribeInstanceStatus
    rw [hd]
  have hd2 : DescribeInstance nenv.backend q.instanceID = .ok (none, false) := by
    unfold DescribeInstance
    rw [hnf2]
    simp
  constructor
  · unfold reconcileStatus
    simp only [hpid, hparse, hs, hd]
    simp [hready, getInstanceAddresses]
  · unfold ensureAWSMachineForNode
    simp only [hlabel, hlist, hnomatch, hparse2, hd2]
    simp [getInstanceAddresses]

/-- A node with no link annotation and an identity unknown to the backend. -/
def c10Node : Node :=
  { name := "node1".data, providerID := "aws:///us-east-1a/i-9".data, annots := [] }

/-- Node-reconciler environment over the not-found backend, no machines. -/
def c10NodeEnv : NodeEnv :=
  { backend := notFoundBackend, listMachines := .ok [],
    createErr := none, setAnnotationErr := none }

/-- Witness for `c10_discarded_exists_flag_panics` at the concrete machine,
node and environments. -/
theorem c10_discarded_exists_flag_panics_witness :
    (reconcileStatus stubEnv provMachine).result = .panicked ∧
    (ensureAWSMachineForNode c10NodeEnv c10Node).1 = .panicked :=
  c10_discarded_exists_flag_panics stubEnv c10NodeEnv provMachine c10Node
    ("aws:///us-east-1a/i-0".data)
    { availabilityZone := "us-east-1a".data, region := "us-east-1".data,
      instanceID := "i-0".data }
    { availabilityZone := "us-east-1a".data, region := "us-east-1".data,
      instanceID := "i-9".data }
    [] rfl (by decide) rfl rfl rfl rfl rfl (by decide) rfl
